import Mathlib

/-!
Verification of the OAuth2 redirection bot (`src/main.py`) against its
specification.  The Python source is shallowly embedded: Python strings are
modelled as `List Char`, the three JSON-backed dict tables as association
lists, and every external HTTP call as an explicit oracle argument (the
result the network would have produced).  All definitions follow the source
line by line; line references are given in the doc comments.
-/

/-- Python strings are modelled as lists of characters. -/
abbrev Str := List Char

/-- The decimal digit character for `n < 10` (codepoint 48 + n). -/
def digitChar (n : Nat) : Char := Char.ofNat (48 + n)

/-- Fuel-based decimal rendering of a natural number, least-significant digit
last.  The fuel makes the definition structurally recursive so that concrete
values reduce inside the kernel. -/
def toDec : Nat → Nat → Str
  | 0, _ => []
  | fuel + 1, n =>
    if n < 10 then [digitChar n] else toDec fuel (n / 10) ++ [digitChar (n % 10)]

/-- Model of Python `str(n)` for a natural number `n` (`main.py` renders ids
with f-strings / `str`). -/
def pyStr (n : Nat) : Str := toDec (n + 1) n

/-- Value of a list of decimal digit characters, most significant first. -/
def fromDigits (s : Str) : Nat :=
  s.foldl (fun acc c => 10 * acc + (c.toNat - 48)) 0

/-- Model of Python `int(s)` on identifier strings: succeeds exactly on
non-empty all-digit strings (the identifiers in this system are pure-numeric,
see the spec's CorrelationState invariant); any other string raises, which the
callers catch, modelled as `none`. -/
def pyInt (s : Str) : Option Nat :=
  if s.isEmpty then none
  else if s.all Char.isDigit then some (fromDigits s) else none

/-- Model of Python `state.split(':')`: splits on every colon, never returns
an empty list. -/
def splitColon : Str → List Str
  | [] => [[]]
  | c :: cs =>
    let r := splitColon cs
    if c = ':' then [] :: r
    else
      match r with
      | [] => [[c]]
      | g :: gs => (c :: g) :: gs

/-- The state-parsing `try` block of `handle_callback` (`main.py` 859-866):
`user_id_str, guild_id_str = state.split(':')` followed by two `int`
conversions.  The unpacking fails unless the split has exactly two parts;
`user_id` is assigned before `guild_id`, so a failure converting the second
field still leaves the first one assigned (the `except` only stops further
assignments). -/
def parse_state (state : Str) : Option Nat × Option Nat :=
  match splitColon state with
  | [user_id_str, guild_id_str] =>
    match pyInt user_id_str with
    | none => (none, none)
    | some user_id =>
      match pyInt guild_id_str with
      | none => (some user_id, none)
      | some guild_id => (some user_id, some guild_id)
  | _ => (none, none)

/-- `state_data = f"{member.id}:{guild.id}"` (`main.py` 294). -/
def state_data (member_id guild_id : Nat) : Str :=
  pyStr member_id ++ ':' :: pyStr guild_id

/-- The fixed part of the authorization URL built at `main.py` 295, ending in
`&state=`; the correlation state is appended right after it. -/
def authUrlBase (client_id redirect_uri : Str) : Str :=
  "https://discord.com/api/oauth2/authorize?client_id=".toList ++ client_id ++
    "&redirect_uri=".toList ++ redirect_uri ++
    "&response_type=code&scope=identify+guilds.join&state=".toList

/-- The full authorization URL of `StartVerifyButton.start_verify`
(`main.py` 293-295): pure string composition, deterministic in its inputs. -/
def oauth_url (client_id redirect_uri : Str) (member_id guild_id : Nat) : Str :=
  authUrlBase client_id redirect_uri ++ state_data member_id guild_id

/-- Association-list lookup, modelling Python `d.get(k)` / `d[k]` /
`k in d` on a dict whose keys are unique. -/
def alookup [DecidableEq κ] (k : κ) : List (κ × α) → Option α
  | [] => none
  | (k', v) :: rest => if k = k' then some v else alookup k rest

/-- Association-list write, modelling Python `d[k] = v`: replaces in place if
the key exists, otherwise appends (dict insertion order). -/
def ainsert [DecidableEq κ] (k : κ) (v : α) : List (κ × α) → List (κ × α)
  | [] => [(k, v)]
  | (k', v') :: rest =>
    if k = k' then (k, v) :: rest else (k', v') :: ainsert k v rest

/-- Association-list delete, modelling Python `del d[k]`. -/
def aerase [DecidableEq κ] (k : κ) : List (κ × α) → List (κ × α)
  | [] => []
  | (k', v') :: rest => if k = k' then rest else (k', v') :: aerase k rest

/-- One entry of the `oauth2_adds_log` table (`main.py` 184-188, 199-203). -/
structure RedirectionLogEntry where
  timestamp : Str
  guild_id : Nat
  method : Str
deriving DecidableEq, Repr

/-- The `oauth2_adds_log` table: user id ↦ append-only list of entries. -/
abbrev Log := List (Str × List RedirectionLogEntry)

/-- The log append of `add_user_to_guild_via_oauth2` (`main.py` 182-189):
`if user_id not in log: log[user_id] = []` then `log[user_id].append(e)`. -/
def logAppend (user_id : Str) (e : RedirectionLogEntry) (log : Log) : Log :=
  match alookup user_id log with
  | none => ainsert user_id [e] log
  | some es => ainsert user_id (es ++ [e]) log

/-- The audit entries recorded for a user (empty when the user has none). -/
def entriesFor (log : Log) (user_id : Str) : List RedirectionLogEntry :=
  (alookup user_id log).getD []

/-- Result of one outbound HTTP request: a response with a status code and a
parsed body, or a transport exception. -/
inductive NetResponse (α : Type) where
  | resp (status : Nat) (body : α)
  | exn
deriving DecidableEq, Repr

/-- The JSON body returned by the token endpoint; `access_token = none`
models a response object lacking the `access_token` key
(`handle_callback` checks `'access_token' in token_data`, `main.py` 848). -/
structure TokenData where
  access_token : Option Str
deriving DecidableEq, Repr

/-- The JSON identity object returned by the `users/@me` endpoint.  The id is
pure-numeric (Discord snowflake); the source compares its string form and
converts it back with `int`, which for numeric ids is the identity modelled
here by carrying the number directly. -/
structure Identity where
  id : Nat
  username : Str
deriving DecidableEq, Repr

/-- `exchange_code_for_token` (`main.py` 107-134): returns the parsed body on
HTTP 200, and `None` on any other status or transport exception. -/
def exchange_code_for_token (code : Str) (net : NetResponse TokenData) :
    Option TokenData :=
  match net with
  | .resp status body => if status = 200 then some body else none
  | .exn => none

/-- `get_user_info` (`main.py` 136-149): returns the parsed identity on
HTTP 200, and `None` on any other status or transport exception. -/
def get_user_info (access_token : Str) (net : NetResponse Identity) :
    Option Identity :=
  match net with
  | .resp status body => if status = 200 then some body else none
  | .exn => none

/-- Result of the guild-membership PUT issued by
`add_user_to_guild_via_oauth2`: a status code, or a transport exception. -/
inductive PutResult where
  | status (code : Nat)
  | exn
deriving DecidableEq, Repr

/-- The four response classes of the redirection call (the branches of
`main.py` 178-221).  The Python function returns a boolean; `toBool` below
gives that collapse. -/
inductive AddOutcome where
  | added
  | alreadyMember
  | forbidden
  | otherError
deriving DecidableEq, Repr

/-- The boolean actually returned by `add_user_to_guild_via_oauth2`:
`True` for the 200/201 and 204 branches, `False` otherwise. -/
def AddOutcome.toBool : AddOutcome → Bool
  | .added => true
  | .alreadyMember => true
  | .forbidden => false
  | .otherError => false

/-- `add_user_to_guild_via_oauth2` (`main.py` 151-221).  Only the
`oauth2_adds_log` table is touched: 200/201 append an `oauth2_guilds_join`
entry, 204 appends an `already_member` entry, 403 and every other status or
exception append nothing. -/
def add_user_to_guild_via_oauth2 (user_id : Str) (access_token : Str)
    (guild_id : Nat) (net : PutResult) (now : Str) (log : Log) :
    AddOutcome × Log :=
  match net with
  | .status s =>
    if s = 200 ∨ s = 201 then
      (.added,
        logAppend user_id
          { timestamp := now, guild_id := guild_id,
            method := "oauth2_guilds_join".toList } log)
    else if s = 204 then
      (.alreadyMember,
        logAppend user_id
          { timestamp := now, guild_id := guild_id,
            method := "already_member".toList } log)
    else if s = 403 then (.forbidden, log)
    else (.otherError, log)
  | .exn => (.otherError, log)

/-- The three JSON-backed tables held in memory by the process
(`main.py` 80-82). -/
structure BotState where
  user_access_tokens : List (Str × Str)
  pending_verifications : List (Str × Nat)
  oauth2_adds_log : Log
deriving DecidableEq, Repr

/-- `complete_verification` (`main.py` 336-387).  `identNet` is the result of
the `get_user_info` network call it performs; `verify` is the outcome of the
`verify_user_in_guild` role transition (an external Discord-side
collaborator), indexed by user id and guild id.  Returns the boolean result
together with the updated tables. -/
def complete_verification (st : BotState) (identNet : NetResponse Identity)
    (verify : Nat → Nat → Bool) (user_id : Nat) (access_token : Str) :
    Bool × BotState :=
  match get_user_info access_token identNet with
  | none => (false, st)
  | some user_info =>
    let user_id_from_token := user_info.id
    let user_id := if user_id ≠ user_id_from_token then user_id_from_token else user_id
    let user_id_str := pyStr user_id
    match alookup user_id_str st.pending_verifications with
    | some guild_id =>
      if verify user_id guild_id then
        let st1 := { st with
          pending_verifications := aerase user_id_str st.pending_verifications }
        let st2 := { st1 with
          user_access_tokens := ainsert user_id_str access_token st1.user_access_tokens }
        (true, st2)
      else (false, st)
    | none =>
      (false, { st with
        user_access_tokens := ainsert user_id_str access_token st.user_access_tokens })

/-- The HTTP response sent to the browser; `aiohttp.web.Response(text=...)`
defaults to status 200 and content type `text/plain`, the success page passes
`content_type='text/html'` explicitly (`main.py` 842, 850, 973). -/
structure HttpResponse where
  status : Nat
  content_type : Str
deriving DecidableEq, Repr

/-- Python truthiness of the optional `user_id` in `handle_callback`
(`None` and `0` are falsy). -/
def optTruthy : Option Nat → Bool
  | none => false
  | some n => n != 0

/-- `handle_callback` (`main.py` 830-973).  `exchangeNet` is the network
result of the token exchange, `identNet1` the result of the callback's own
`get_user_info` call (only made when no usable state was parsed), `identNet2`
the result of the `get_user_info` call inside `complete_verification`.  The
guard `if not code:` (`main.py` 840) fires on an absent (`none`) or
present-but-empty (`some []`) code parameter, both answered `text/plain`
before any exchange is attempted. -/
def handle_callback (st : BotState) (code state : Option Str)
    (exchangeNet : NetResponse TokenData)
    (identNet1 identNet2 : NetResponse Identity)
    (verify : Nat → Nat → Bool) : HttpResponse × BotState :=
  match code with
  | none => ({ status := 200, content_type := "text/plain".toList }, st)
  | some code =>
    if code = [] then
      ({ status := 200, content_type := "text/plain".toList }, st)
    else
    match exchange_code_for_token code exchangeNet with
    | none => ({ status := 200, content_type := "text/plain".toList }, st)
    | some token_data =>
      match token_data.access_token with
      | none => ({ status := 200, content_type := "text/plain".toList }, st)
      | some access_token =>
        let parsed : Option Nat × Option Nat :=
          match state with
          | some s => if s ≠ [] ∧ ':' ∈ s then parse_state s else (none, none)
          | none => (none, none)
        let user_id := parsed.1
        let user_id :=
          if optTruthy user_id then user_id
          else
            match get_user_info access_token identNet1 with
            | some user_info => some user_info.id
            | none => user_id
        match user_id with
        | some uid =>
          if uid != 0 then
            ({ status := 200, content_type := "text/html".toList },
              (complete_verification st identNet2 verify uid access_token).2)
          else ({ status := 200, content_type := "text/html".toList }, st)
        | none => ({ status := 200, content_type := "text/html".toList }, st)

/-- The counters reported by the `!addall` batch (`main.py` 503-505), plus a
count of the pacing delays actually awaited (`await asyncio.sleep(1.5)`,
`main.py` 534). -/
structure BatchCounts where
  success_count : Nat
  fail_count : Nat
  no_token_count : Nat
  sleeps : Nat
deriving DecidableEq, Repr

/-- Whether the in-loop token lookup of `add_all_command` skips a member:
`access_token = user_access_tokens.get(uid)` followed by
`if not access_token:` (missing key or empty string, `main.py` 509-513). -/
def missingToken (tokens : List (Str × Str)) (member : Nat) : Bool :=
  match alookup (pyStr member) tokens with
  | none => true
  | some access_token => decide (access_token = [])

/-- The main loop of `add_all_command` (`main.py` 507-534), over the ordered
member list: members whose token lookup is falsy are counted as skipped and
`continue` (no redirection call, no pacing delay); for the rest the
redirection call is made (`resp i` / `now i` are the network result and
timestamp of the i-th iteration), its boolean outcome tallied, and one pacing
delay awaited.  The loop never short-circuits: every outcome, including
failures, just increments a counter. -/
def runBatch (tokens : List (Str × Str)) (guild_id : Nat)
    (resp : Nat → PutResult) (now : Nat → Str) :
    List Nat → Nat → Log → BatchCounts × Log
  | [], _, log => (⟨0, 0, 0, 0⟩, log)
  | member :: rest, i, log =>
    match alookup (pyStr member) tokens with
    | none =>
      let r := runBatch tokens guild_id resp now rest (i + 1) log
      ({ r.1 with no_token_count := r.1.no_token_count + 1 }, r.2)
    | some access_token =>
      if access_token = [] then
        let r := runBatch tokens guild_id resp now rest (i + 1) log
        ({ r.1 with no_token_count := r.1.no_token_count + 1 }, r.2)
      else
        let a := add_user_to_guild_via_oauth2 (pyStr member) access_token
          guild_id (resp i) (now i) log
        let r := runBatch tokens guild_id resp now rest (i + 1) a.2
        if a.1.toBool then
          ({ r.1 with success_count := r.1.success_count + 1,
                      sleeps := r.1.sleeps + 1 }, r.2)
        else
          ({ r.1 with fail_count := r.1.fail_count + 1,
                      sleeps := r.1.sleeps + 1 }, r.2)

/-- `add_all_command` (`main.py` 489-544): filters the verified role members
to those whose id is a key of `user_access_tokens`, returns early (no batch)
when that list is empty, and otherwise runs the batch loop. -/
def add_all_command (tokens : List (Str × Str)) (log : Log)
    (role_members : List Nat) (guild_id : Nat)
    (resp : Nat → PutResult) (now : Nat → Str) : Option (BatchCounts × Log) :=
  let verified_members :=
    role_members.filter (fun member => (alookup (pyStr member) tokens).isSome)
  if verified_members = [] then none
  else some (runBatch tokens guild_id resp now verified_members 0 log)

/-! ### Decimal string lemmas -/

lemma toDec_congr (n : Nat) : ∀ f1 f2 : Nat, n < f1 → n < f2 → toDec f1 n = toDec f2 n := by
  induction n using Nat.strong_induction_on with
  | _ n ih =>
    intro f1 f2 h1 h2
    cases f1 with
    | zero => omega
    | succ k =>
      cases f2 with
      | zero => omega
      | succ m =>
        simp only [toDec]
        by_cases h : n < 10
        · simp [h]
        · simp only [h, if_false]
          rw [ih (n / 10) (by omega) k m (by omega) (by omega)]

lemma pyStr_eq (n : Nat) :
    pyStr n = if n < 10 then [digitChar n] else pyStr (n / 10) ++ [digitChar (n % 10)] := by
  by_cases h : n < 10
  · rw [if_pos h]
    show toDec (n + 1) n = [digitChar n]
    rw [toDec, if_pos h]
  · rw [if_neg h]
    show toDec (n + 1) n = toDec (n / 10 + 1) (n / 10) ++ [digitChar (n % 10)]
    rw [toDec, if_neg h, toDec_congr (n / 10) n (n / 10 + 1) (by omega) (by omega)]

lemma digitChar_isDigit (n : Nat) (h : n < 10) : (digitChar n).isDigit = true := by
  interval_cases n <;> decide

lemma digitChar_toNat (n : Nat) (h : n < 10) : (digitChar n).toNat = 48 + n := by
  interval_cases n <;> decide

lemma fromDigits_append (l : Str) (c : Char) :
    fromDigits (l ++ [c]) = 10 * fromDigits l + (c.toNat - 48) := by
  simp [fromDigits, List.foldl_append]

lemma fromDigits_pyStr (n : Nat) : fromDigits (pyStr n) = n := by
  induction n using Nat.strong_induction_on with
  | _ n ih =>
    rw [pyStr_eq]
    by_cases h : n < 10
    · simp [h, fromDigits, digitChar_toNat n h]
    · rw [if_neg h, fromDigits_append, ih (n / 10) (by omega),
        digitChar_toNat (n % 10) (by omega)]
      omega

lemma mem_pyStr_isDigit (n : Nat) : ∀ c ∈ pyStr n, c.isDigit = true := by
  induction n using Nat.strong_induction_on with
  | _ n ih =>
    rw [pyStr_eq]
    by_cases h : n < 10
    · simp only [h, if_true, List.mem_singleton]
      rintro c rfl
      exact digitChar_isDigit n h
    · simp only [h, if_false, List.mem_append, List.mem_singleton]
      rintro c (hc | rfl)
      · exact ih (n / 10) (by omega) c hc
      · exact digitChar_isDigit (n % 10) (by omega)

lemma pyStr_ne_nil (n : Nat) : pyStr n ≠ [] := by
  rw [pyStr_eq]
  by_cases h : n < 10 <;> simp [h]

lemma colon_not_mem_pyStr (n : Nat) : ':' ∉ pyStr n := by
  intro hmem
  have := mem_pyStr_isDigit n ':' hmem
  exact absurd this (by decide)

lemma pyInt_pyStr (n : Nat) : pyInt (pyStr n) = some n := by
  have h1 : (pyStr n).isEmpty = false := by
    cases h : pyStr n with
    | nil => exact absurd h (pyStr_ne_nil n)
    | cons a l => rfl
  have h2 : (pyStr n).all Char.isDigit = true := by
    rw [List.all_eq_true]
    exact mem_pyStr_isDigit n
  rw [pyInt, h1, if_neg (by simp), if_pos h2, fromDigits_pyStr]

/-! ### Split lemmas -/

lemma splitColon_ne_nil (s : Str) : splitColon s ≠ [] := by
  cases s with
  | nil => simp [splitColon]
  | cons c cs =>
    simp only [splitColon]
    by_cases h : c = ':'
    · simp [h]
    · simp only [h, if_false]
      cases splitColon cs <;> simp

lemma splitColon_no_colon (s : Str) (h : ':' ∉ s) : splitColon s = [s] := by
  induction s with
  | nil => rfl
  | cons c cs ih =>
    have hc : c ≠ ':' := fun hc => h (hc ▸ List.mem_cons_self c cs)
    have hcs : ':' ∉ cs := fun hm => h (List.mem_cons_of_mem c hm)
    simp only [splitColon, hc, if_false, ih hcs]

lemma splitColon_append (l m : Str) (h : ':' ∉ l) :
    splitColon (l ++ ':' :: m) = l :: splitColon m := by
  induction l with
  | nil => simp [splitColon]
  | cons c cs ih =>
    have hc : c ≠ ':' := fun hc => h (hc ▸ List.mem_cons_self c cs)
    have hcs : ':' ∉ cs := fun hm => h (List.mem_cons_of_mem c hm)
    simp only [List.cons_append, splitColon, hc, if_false, List.append_eq, ih hcs]

lemma splitColon_state_data (u g : Nat) :
    splitColon (state_data u g) = [pyStr u, pyStr g] := by
  rw [state_data, splitColon_append (pyStr u) (pyStr g) (colon_not_mem_pyStr u),
    splitColon_no_colon (pyStr g) (colon_not_mem_pyStr g)]

lemma parse_state_state_data (u g : Nat) :
    parse_state (state_data u g) = (some u, some g) := by
  rw [parse_state, splitColon_state_data]
  simp [pyInt_pyStr]

/-! ### Association-list lemmas -/

lemma alookup_mem [DecidableEq κ] (k : κ) (v : α) :
    ∀ l : List (κ × α), alookup k l = some v → (k, v) ∈ l := by
  intro l
  induction l with
  | nil => intro h; simp [alookup] at h
  | cons p rest ih =>
    obtain ⟨k1, v1⟩ := p
    intro h
    rw [alookup] at h
    by_cases hk : k = k1
    · rw [if_pos hk] at h
      obtain rfl : v1 = v := Option.some.inj h
      subst hk
      exact List.mem_cons_self _ _
    · rw [if_neg hk] at h
      exact List.mem_cons_of_mem _ (ih h)

lemma alookup_ainsert_self [DecidableEq κ] (k : κ) (v : α) :
    ∀ l : List (κ × α), alookup k (ainsert k v l) = some v := by
  intro l
  induction l with
  | nil => simp [alookup, ainsert]
  | cons p rest ih =>
    rw [ainsert]
    by_cases hk : k = p.1
    · rw [if_pos hk, alookup, if_pos rfl]
    · rw [if_neg hk, alookup, if_neg hk]
      exact ih

lemma alookup_ainsert_ne [DecidableEq κ] (k k' : κ) (v : α) (hne : k' ≠ k) :
    ∀ l : List (κ × α), alookup k' (ainsert k v l) = alookup k' l := by
  intro l
  induction l with
  | nil => simp [alookup, ainsert, hne]
  | cons p rest ih =>
    rw [ainsert]
    by_cases hk : k = p.1
    · rw [if_pos hk, alookup, if_neg (hk ▸ hne), alookup, if_neg (hk ▸ hne)]
    · rw [if_neg hk, alookup, alookup]
      by_cases hk' : k' = p.1
      · rw [if_pos hk', if_pos hk']
      · rw [if_neg hk', if_neg hk', ih]

lemma entriesFor_logAppend_self (log : Log) (user_id : Str) (e : RedirectionLogEntry) :
    entriesFor (logAppend user_id e log) user_id = entriesFor log user_id ++ [e] := by
  rw [logAppend]
  cases h : alookup user_id log with
  | none => simp [entriesFor, alookup_ainsert_self, h]
  | some es => simp [entriesFor, alookup_ainsert_self, h]

lemma entriesFor_logAppend_ne (log : Log) (user_id k : Str)
    (e : RedirectionLogEntry) (hne : k ≠ user_id) :
    entriesFor (logAppend user_id e log) k = entriesFor log k := by
  rw [logAppend]
  cases h : alookup user_id log with
  | none => simp [entriesFor, alookup_ainsert_ne user_id k _ hne]
  | some es => simp [entriesFor, alookup_ainsert_ne user_id k _ hne]

/-! ### Batch loop counting lemmas -/

lemma length_filter_not (p : α → Bool) (l : List α) :
    (l.filter p).length + (l.filter (fun a => !(p a))).length = l.length := by
  induction l with
  | nil => rfl
  | cons a l ih =>
    cases h : p a <;> simp [List.filter_cons, h] <;> omega

lemma runBatch_spec (tokens : List (Str × Str)) (guild_id : Nat)
    (resp : Nat → PutResult) (now : Nat → Str) :
    ∀ (members : List Nat) (i : Nat) (log : Log),
      (runBatch tokens guild_id resp now members i log).1.no_token_count
          = (members.filter (missingToken tokens)).length ∧
      (runBatch tokens guild_id resp now members i log).1.success_count
          + (runBatch tokens guild_id resp now members i log).1.fail_count
          = (members.filter (fun m => !(missingToken tokens m))).length ∧
      (runBatch tokens guild_id resp now members i log).1.sleeps
          = (members.filter (fun m => !(missingToken tokens m))).length := by
  intro members
  induction members with
  | nil => intro i log; simp [runBatch]
  | cons member rest ih =>
    intro i log
    cases hlk : alookup (pyStr member) tokens with
    | none =>
      have hmt : missingToken tokens member = true := by rw [missingToken, hlk]
      obtain ⟨ih1, ih2, ih3⟩ := ih (i + 1) log
      simp only [runBatch, hlk, List.filter_cons, hmt, Bool.not_true, if_true,
        if_false, List.length_cons, cond_true, cond_false]
      refine ⟨?_, ?_, ?_⟩ <;> simp [ih1, ih2, ih3]
    | some access_token =>
      by_cases he : access_token = []
      · have hmt : missingToken tokens member = true := by
          rw [missingToken, hlk]
          simp [he]
        obtain ⟨ih1, ih2, ih3⟩ := ih (i + 1) log
        simp only [runBatch, hlk, he, List.filter_cons, hmt, if_true, if_false,
          List.length_cons, cond_true, cond_false]
        refine ⟨?_, ?_, ?_⟩ <;> simp [ih1, ih2, ih3]
      · have hmt : missingToken tokens member = false := by
          rw [missingToken, hlk]
          simp [he]
        set a := add_user_to_guild_via_oauth2 (pyStr member) access_token
          guild_id (resp i) (now i) log with ha
        obtain ⟨ih1, ih2, ih3⟩ := ih (i + 1) a.2
        simp only [runBatch, hlk, he, ← ha, List.filter_cons, hmt, if_false,
          List.length_cons, cond_true, cond_false, Bool.not_false]
        cases hb : a.1.toBool <;>
          · simp only [hb, if_true, if_false]
            refine ⟨?_, ?_, ?_⟩ <;> simp [ih1, ih2, ih3] <;> omega

/-! ### Claim theorems -/

/-- C8: for every pure-numeric (userId, groupId) pair, building the
authorization URL is deterministic in its inputs (it is the pure function
`oauth_url` of exactly those inputs, equal to a fixed prefix followed by the
state parameter), and the state query parameter embedded in that URL parses
back — by splitting on the colon delimiter and converting each field — to
exactly the same (userId, groupId) pair. -/
theorem claim_c8 (client_id redirect_uri : Str) (member_id guild_id : Nat) :
    oauth_url client_id redirect_uri member_id guild_id
        = authUrlBase client_id redirect_uri ++ state_data member_id guild_id ∧
    parse_state (state_data member_id guild_id) = (some member_id, some guild_id) :=
  ⟨rfl, parse_state_state_data member_id guild_id⟩

/-- C6: for every single-user redirection call, the HTTP status classifies
the outcome and determines the audit log effect: status 200 or 201 yields
`added` and appends exactly one RedirectionLogEntry tagged
`oauth2_guilds_join`; status 204 yields `alreadyMember` and appends exactly
one entry tagged `already_member`; status 403 yields `forbidden` with zero
entries appended; any other status or a transport exception yields
`otherError` with zero entries appended.  The last two conjuncts state that
`logAppend` appends exactly one entry for the user and leaves every other
user's entries unchanged. -/
theorem claim_c6 (user_id access_token : Str) (guild_id : Nat) (now : Str)
    (log : Log) (s : Nat) :
    ((s = 200 ∨ s = 201) →
      add_user_to_guild_via_oauth2 user_id access_token guild_id (.status s) now log
        = (.added,
            logAppend user_id ⟨now, guild_id, "oauth2_guilds_join".toList⟩ log)) ∧
    (s = 204 →
      add_user_to_guild_via_oauth2 user_id access_token guild_id (.status s) now log
        = (.alreadyMember,
            logAppend user_id ⟨now, guild_id, "already_member".toList⟩ log)) ∧
    (s = 403 →
      add_user_to_guild_via_oauth2 user_id access_token guild_id (.status s) now log
        = (.forbidden, log)) ∧
    (s ≠ 200 → s ≠ 201 → s ≠ 204 → s ≠ 403 →
      add_user_to_guild_via_oauth2 user_id access_token guild_id (.status s) now log
        = (.otherError, log)) ∧
    (add_user_to_guild_via_oauth2 user_id access_token guild_id .exn now log
        = (.otherError, log)) ∧
    (∀ e, entriesFor (logAppend user_id e log) user_id
        = entriesFor log user_id ++ [e]) ∧
    (∀ e k, k ≠ user_id →
        entriesFor (logAppend user_id e log) k = entriesFor log k) := by
  refine ⟨?_, ?_, ?_, ?_, rfl, entriesFor_logAppend_self log user_id,
    fun e k h => entriesFor_logAppend_ne log user_id k e h⟩
  · rintro (rfl | rfl) <;> simp [add_user_to_guild_via_oauth2]
  · rintro rfl
    simp [add_user_to_guild_via_oauth2]
  · rintro rfl
    simp [add_user_to_guild_via_oauth2]
  · intro h1 h2 h3 h4
    simp [add_user_to_guild_via_oauth2, h1, h2, h3, h4]

/-- Witness for C6: every status class of the classification is realised at a
concrete input. -/
theorem claim_c6_witness :
    add_user_to_guild_via_oauth2 ['u'] ['t'] 5 (.status 201) ['n'] []
        = (.added, logAppend ['u'] ⟨['n'], 5, "oauth2_guilds_join".toList⟩ []) ∧
    add_user_to_guild_via_oauth2 ['u'] ['t'] 5 (.status 204) ['n'] []
        = (.alreadyMember, logAppend ['u'] ⟨['n'], 5, "already_member".toList⟩ []) ∧
    add_user_to_guild_via_oauth2 ['u'] ['t'] 5 (.status 403) ['n'] []
        = (.forbidden, []) ∧
    add_user_to_guild_via_oauth2 ['u'] ['t'] 5 (.status 500) ['n'] []
        = (.otherError, []) :=
  ⟨(claim_c6 ['u'] ['t'] 5 ['n'] [] 201).1 (Or.inr rfl),
   (claim_c6 ['u'] ['t'] 5 ['n'] [] 204).2.1 rfl,
   (claim_c6 ['u'] ['t'] 5 ['n'] [] 403).2.2.1 rfl,
   (claim_c6 ['u'] ['t'] 5 ['n'] [] 500).2.2.2.1 (by decide) (by decide)
     (by decide) (by decide)⟩

/-- C7: the batch loop over an ordered sequence of N members, of which M lack
a (truthy) token, runs to completion for every mix of per-call outcomes (it
is a total function of the outcome oracle `resp`) and reports
`success_count + fail_count = N - M` and `no_token_count = M`; skipped
entries consume no pacing delay (`sleeps = N - M`). -/
theorem claim_c7 (tokens : List (Str × Str)) (guild_id : Nat)
    (resp : Nat → PutResult) (now : Nat → Str) (members : List Nat)
    (i : Nat) (log : Log) :
    (runBatch tokens guild_id resp now members i log).1.success_count
        + (runBatch tokens guild_id resp now members i log).1.fail_count
        = members.length - (members.filter (missingToken tokens)).length ∧
    (runBatch tokens guild_id resp now members i log).1.no_token_count
        = (members.filter (missingToken tokens)).length ∧
    (runBatch tokens guild_id resp now members i log).1.sleeps
        = members.length - (members.filter (missingToken tokens)).length := by
  obtain ⟨h1, h2, h3⟩ := runBatch_spec tokens guild_id resp now members i log
  have h4 := length_filter_not (missingToken tokens) members
  exact ⟨by omega, h1, by omega⟩

/-- C10: `add_all_command` filters the role members to those whose id is a
key of the token table before iterating, so whenever every stored token value
is a non-empty string the in-loop missing-token branch is unreachable and the
reported `no_token_count` is zero. -/
theorem claim_c10 (tokens : List (Str × Str)) (log : Log)
    (role_members : List Nat) (guild_id : Nat) (resp : Nat → PutResult)
    (now : Nat → Str) (c : BatchCounts) (log2 : Log)
    (hne : ∀ p ∈ tokens, p.2 ≠ ([] : Str))
    (h : add_all_command tokens log role_members guild_id resp now
          = some (c, log2)) :
    c.no_token_count = 0 := by
  rw [add_all_command] at h
  set vm := role_members.filter
    (fun member => (alookup (pyStr member) tokens).isSome) with hvm
  by_cases hnil : vm = []
  · rw [if_pos hnil] at h
    exact absurd h (by simp)
  · rw [if_neg hnil] at h
    have hr : runBatch tokens guild_id resp now vm 0 log = (c, log2) :=
      Option.some.inj h
    have hc : c = (runBatch tokens guild_id resp now vm 0 log).1 := by rw [hr]
    obtain ⟨h1, _, _⟩ := runBatch_spec tokens guild_id resp now vm 0 log
    rw [hc, h1]
    have hfil : vm.filter (missingToken tokens) = [] := by
      rw [List.filter_eq_nil_iff]
      intro m hm
      have hmem : (alookup (pyStr m) tokens).isSome := by
        have := (List.mem_filter.mp (hvm ▸ hm)).2
        simpa using this
      obtain ⟨t, ht⟩ := Option.isSome_iff_exists.mp hmem
      have hnee := hne _ (alookup_mem _ _ tokens ht)
      rw [missingToken, ht]
      simp [hnee]
    rw [hfil]
    rfl

/-- Witness for C10: a concrete one-member batch with a non-empty stored
token reports zero skipped members. -/
theorem claim_c10_witness : BatchCounts.no_token_count ⟨1, 0, 0, 1⟩ = 0 :=
  claim_c10 [(pyStr 1, ['t'])] [] [1] 5 (fun _ => PutResult.status 201)
    (fun _ => ['n']) ⟨1, 0, 0, 1⟩
    (logAppend (pyStr 1) ⟨['n'], 5, "oauth2_guilds_join".toList⟩ [])
    (by decide) (by decide)

/-- The net effect of `main.py` 352-354: after the mismatch check the working
user id is always the identity's self-reported one. -/
lemma resolve_id (a b : Nat) : (if a ≠ b then b else a) = b := by
  by_cases h : a = b <;> simp [h]

/-- Variant of `resolve_id` in the if-condition orientation `simp`
normalises to. -/
lemma resolve_id2 (a b : Nat) : (if a = b then a else b) = b := by
  by_cases h : a = b <;> simp [h]

/-- C1: for every callback whose access token resolves to an identity whose
user id differs from the state-supplied user id, reconciliation proceeds
using the identity-resolved id: the run is identical to one invoked with the
identity's id, and the PendingVerification lookup, the pending-record
deletion and the StoredToken write are all keyed by `pyStr ident.id`, never
by the state-supplied id. -/
theorem claim_c1 (st : BotState) (ident : Identity) (verify : Nat → Nat → Bool)
    (user_id : Nat) (access_token : Str) (h : user_id ≠ ident.id) :
    complete_verification st (.resp 200 ident) verify user_id access_token
        = complete_verification st (.resp 200 ident) verify ident.id access_token ∧
    complete_verification st (.resp 200 ident) verify user_id access_token
        = (match alookup (pyStr ident.id) st.pending_verifications with
           | some guild_id =>
             if verify ident.id guild_id then
               (true, { st with
                 pending_verifications :=
                   aerase (pyStr ident.id) st.pending_verifications,
                 user_access_tokens :=
                   ainsert (pyStr ident.id) access_token st.user_access_tokens })
             else (false, st)
           | none =>
             (false,
               { st with
                 user_access_tokens :=
                   ainsert (pyStr ident.id) access_token
                     st.user_access_tokens })) := by
  constructor
  · simp [complete_verification, get_user_info, resolve_id, resolve_id2]
  · simp [complete_verification, get_user_info, resolve_id, resolve_id2]

/-- Witness for C1: a callback carrying state id 1 while the identity reports
id 2 behaves exactly as one carrying id 2. -/
theorem claim_c1_witness :
    (1 ≠ (Identity.mk 2 []).id) ∧
    complete_verification ⟨[], [(pyStr 2, 9)], []⟩ (.resp 200 ⟨2, []⟩)
        (fun _ _ => true) 1 ['t']
      = complete_verification ⟨[], [(pyStr 2, 9)], []⟩ (.resp 200 ⟨2, []⟩)
        (fun _ _ => true) 2 ['t'] :=
  ⟨by decide,
   (claim_c1 ⟨[], [(pyStr 2, 9)], []⟩ ⟨2, []⟩ (fun _ _ => true) 1 ['t']
     (by decide)).1⟩

/-- C2: when a PendingVerification record exists for the identity-resolved
user and the role transition succeeds, the terminal result is the success
signal with exactly these effects: the pending entry is deleted and the
StoredToken for that user is set to the exchanged access token (all other
tables untouched). -/
theorem claim_c2 (st : BotState) (ident : Identity) (verify : Nat → Nat → Bool)
    (user_id : Nat) (access_token : Str) (guild_id : Nat)
    (hp : alookup (pyStr ident.id) st.pending_verifications = some guild_id)
    (hv : verify ident.id guild_id = true) :
    complete_verification st (.resp 200 ident) verify user_id access_token
      = (true, { st with
          pending_verifications :=
            aerase (pyStr ident.id) st.pending_verifications,
          user_access_tokens :=
            ainsert (pyStr ident.id) access_token st.user_access_tokens }) := by
  simp [complete_verification, get_user_info, resolve_id, resolve_id2, hp, hv]

/-- Witness for C2 at a concrete pending record and succeeding transition. -/
theorem claim_c2_witness :
    complete_verification ⟨[], [(pyStr 2, 9)], []⟩ (.resp 200 ⟨2, []⟩)
        (fun _ _ => true) 2 ['t']
      = (true, { BotState.mk [] [(pyStr 2, 9)] [] with
          pending_verifications := aerase (pyStr 2) [(pyStr 2, 9)],
          user_access_tokens := ainsert (pyStr 2) ['t'] [] }) :=
  claim_c2 ⟨[], [(pyStr 2, 9)], []⟩ ⟨2, []⟩ (fun _ _ => true) 2 ['t'] 9
    (by decide) rfl

/-- C3: when a PendingVerification record exists for the identity-resolved
user but the role transition fails, the outcome is the failure signal and the
state is completely unchanged: the pending entry is not deleted and no
StoredToken is written in this branch. -/
theorem claim_c3 (st : BotState) (ident : Identity) (verify : Nat → Nat → Bool)
    (user_id : Nat) (access_token : Str) (guild_id : Nat)
    (hp : alookup (pyStr ident.id) st.pending_verifications = some guild_id)
    (hv : verify ident.id guild_id = false) :
    complete_verification st (.resp 200 ident) verify user_id access_token
      = (false, st) := by
  simp [complete_verification, get_user_info, resolve_id, resolve_id2, hp, hv]

/-- Witness for C3 at a concrete pending record and failing transition. -/
theorem claim_c3_witness :
    complete_verification ⟨[], [(pyStr 2, 9)], []⟩ (.resp 200 ⟨2, []⟩)
        (fun _ _ => false) 2 ['t']
      = (false, ⟨[], [(pyStr 2, 9)], []⟩) :=
  claim_c3 ⟨[], [(pyStr 2, 9)], []⟩ ⟨2, []⟩ (fun _ _ => false) 2 ['t'] 9
    (by decide) rfl

/-- Counterexample to C4 as stated: at a concrete callback with no pending
record the premises of C4 hold, and the token is stored, but
`complete_verification` returns `false` — the same signal as a failure — so
the flow does not reach the `Reconciled` success signal the claim asserts. -/
theorem claim_c4_counterexample :
    alookup (pyStr 7) (BotState.mk [] [] []).pending_verifications = none ∧
    (complete_verification ⟨[], [], []⟩ (.resp 200 ⟨7, []⟩) (fun _ _ => true) 7
        ['t']).1 = false ∧
    alookup (pyStr 7)
        (complete_verification ⟨[], [], []⟩ (.resp 200 ⟨7, []⟩)
          (fun _ _ => true) 7 ['t']).2.user_access_tokens = some ['t'] := by
  decide

/-- C4 (amended): when no PendingVerification record exists for the
identity-resolved user, the StoredToken is still set to the exchanged access
token and the PendingVerification table is left untouched, but the function
returns `false` — it does not signal the `Reconciled` success outcome. -/
theorem claim_c4_amended (st : BotState) (ident : Identity)
    (verify : Nat → Nat → Bool) (user_id : Nat) (access_token : Str)
    (hp : alookup (pyStr ident.id) st.pending_verifications = none) :
    complete_verification st (.resp 200 ident) verify user_id access_token
      = (false,
          { st with
            user_access_tokens :=
              ainsert (pyStr ident.id) access_token st.user_access_tokens }) := by
  simp [complete_verification, get_user_info, resolve_id, resolve_id2, hp]

/-- Witness for the amended C4 at a concrete empty pending table. -/
theorem claim_c4_witness :
    complete_verification ⟨[], [], []⟩ (.resp 200 ⟨7, []⟩) (fun _ _ => true) 7
        ['t']
      = (false, { BotState.mk [] [] [] with
          user_access_tokens := ainsert (pyStr 7) ['t'] [] }) :=
  claim_c4_amended ⟨[], [], []⟩ ⟨7, []⟩ (fun _ _ => true) 7 ['t'] (by decide)

/-- C5: when the authorization-code-to-token exchange fails (non-200 status
or transport exception, both giving `None`, or a response body lacking the
`access_token` key), the callback terminates without mutating either the
PendingVerification table or the StoredToken table. -/
theorem claim_c5 (st : BotState) (code : Str) (state : Option Str)
    (exchangeNet : NetResponse TokenData)
    (identNet1 identNet2 : NetResponse Identity) (verify : Nat → Nat → Bool)
    (h : exchange_code_for_token code exchangeNet = none ∨
      ∃ td, exchange_code_for_token code exchangeNet = some td ∧
        td.access_token = none) :
    (handle_callback st (some code) state exchangeNet identNet1 identNet2
        verify).2.pending_verifications = st.pending_verifications ∧
    (handle_callback st (some code) state exchangeNet identNet1 identNet2
        verify).2.user_access_tokens = st.user_access_tokens := by
  by_cases hc : code = []
  · constructor <;> simp [handle_callback, hc]
  · rcases h with h | ⟨td, h1, h2⟩
    · simp [handle_callback, hc, h]
    · simp [handle_callback, hc, h1, h2]

/-- Witness for C5: a transport exception during the exchange leaves both
tables exactly as they were. -/
theorem claim_c5_witness :
    (handle_callback ⟨[(['a'], ['t'])], [(['b'], 3)], []⟩ (some ['c']) none
        .exn .exn .exn (fun _ _ => true)).2.pending_verifications
      = [(['b'], 3)] ∧
    (handle_callback ⟨[(['a'], ['t'])], [(['b'], 3)], []⟩ (some ['c']) none
        .exn .exn .exn (fun _ _ => true)).2.user_access_tokens
      = [(['a'], ['t'])] :=
  claim_c5 ⟨[(['a'], ['t'])], [(['b'], 3)], []⟩ ['c'] none .exn .exn .exn
    (fun _ _ => true) (Or.inl rfl)

/-- Counterexample to C9 as stated: a callback request with no `code`
parameter is answered with status 200 but content-type `text/plain`
(`aiohttp` default for `web.Response(text=...)`), not `text/html`. -/
theorem claim_c9_counterexample :
    (handle_callback ⟨[], [], []⟩ none none .exn .exn .exn
        (fun _ _ => true)).1.status = 200 ∧
    (handle_callback ⟨[], [], []⟩ none none .exn .exn .exn
        (fun _ _ => true)).1.content_type ≠ "text/html".toList := by
  decide

/-- C9 (amended): every request to the callback endpoint is answered with
status 200, whatever the reconciliation outcome; the content type is
`text/html` exactly on the path where an access token was obtained (there
the page is the same regardless of reconciliation success), and `text/plain`
when the code parameter is missing or empty (`if not code:`, answered before
any exchange) or the exchange fails or returns no access token. -/
theorem claim_c9_amended (st : BotState) (code state : Option Str)
    (exchangeNet : NetResponse TokenData)
    (identNet1 identNet2 : NetResponse Identity) (verify : Nat → Nat → Bool) :
    (handle_callback st code state exchangeNet identNet1 identNet2
        verify).1.status = 200 ∧
    (handle_callback st code state exchangeNet identNet1 identNet2
        verify).1.content_type
      = (match code with
         | none => "text/plain".toList
         | some c =>
           if c = [] then "text/plain".toList
           else
             match exchange_code_for_token c exchangeNet with
             | none => "text/plain".toList
             | some td =>
               match td.access_token with
               | none => "text/plain".toList
               | some _ => "text/html".toList) := by
  cases code with
  | none => exact ⟨rfl, rfl⟩
  | some c =>
    by_cases hc : c = []
    · simp [handle_callback, hc]
    · cases hx : exchange_code_for_token c exchangeNet with
      | none => simp [handle_callback, hc, hx]
      | some td =>
        cases ha : td.access_token with
        | none => simp [handle_callback, hc, hx, ha]
        | some tok =>
          simp only [handle_callback, hc, hx, ha, if_neg hc]
          constructor <;>
            · repeat' split
              all_goals rfl
